import Mathlib

namespace Scorebase

/-!
Verification development for the scorebase feature-extraction engine
(`rag/extract.py`).

The extractor is a pure function from a parsed score to a flat feature
record.  The parsing library (music21) is external: its outputs (flattened
pitch list, note list, chordified simultaneities, text expressions,
metronome marks, analyzed key, measures with barlines) are the inputs of
the code under verification, and are modelled here as fields of an
abstract `ScoreE` structure.  Each analyzer of the source is translated
into a Lean function over `ScoreE` and the (dictionary-like) feature
record `Rec`, whose `Option`-valued fields model key presence/absence.

Numeric conventions of the source: Python `round(x, n)` is banker's
rounding (round-half-to-even), modelled by `pyRound`; Python `int(x)`
truncates toward zero, modelled by `intTrunc`; Python `x % 12` on
integers agrees with `Int.emod`.
-/

/-- Floor of a rational, written so that it evaluates by integer division
(`⌊q⌋` itself does not kernel-reduce). -/
def pyFloor (q : ℚ) : ℤ := q.num / (q.den : ℤ)

/-- Python `int(x)`: truncation toward zero. -/
def intTrunc (q : ℚ) : ℤ := if 0 ≤ q then pyFloor q else -(pyFloor (-q))

/-- Round a rational to the nearest integer, ties to even: the semantics
of Python `round` on exact values. -/
def pyRoundInt (x : ℚ) : ℤ :=
  if x - pyFloor x < 1/2 then pyFloor x
  else if 1/2 < x - pyFloor x then pyFloor x + 1
  else if pyFloor x % 2 = 0 then pyFloor x else pyFloor x + 1

/-- Python `round(x, prec)` on exact values. -/
def pyRound (prec : ℕ) (x : ℚ) : ℚ := (pyRoundInt (x * 10 ^ prec) : ℚ) / 10 ^ prec

/-- Lower-case a string character-wise: model of Python `str.lower()`
(ASCII range; the movement-name dictionary is already lower case). -/
def lowerStr (s : String) : String := ⟨s.data.map Char.toLower⟩

/-- Auxiliary for substring search: does `p` occur as a contiguous
subsequence of the second list? -/
def chSeq (p : List Char) : List Char → Bool
  | [] => p.isEmpty
  | c :: cs => (p.isPrefixOf (c :: cs)) || chSeq p cs

/-- Python `needle in hay` on strings: substring containment. -/
def strContains (hay needle : String) : Bool := chSeq needle.data hay.data

/-- Python string slicing `s[:n]` (character based). -/
def strTake (s : String) (n : ℕ) : String := ⟨s.data.take n⟩

-- ─────────────────────────────────────────────────────────────────
-- CONSTANTS (from the source)
-- ─────────────────────────────────────────────────────────────────

/-- The fixed movement-name dictionary `MOVEMENT_NAMES` of the source,
as a duplicate-free list. -/
def MOVEMENT_NAMES : List String :=
  ["allemande", "courante", "sarabande", "gigue", "menuet", "menuetto",
   "minuet", "gavotte", "bourree", "bourrée", "prelude", "fugue",
   "praeludium", "fuga", "air", "trio", "rondo", "scherzo", "finale",
   "toccata", "passepied", "loure", "anglaise", "polonaise", "badinerie",
   "overture", "ouverture", "intermezzo", "siciliano", "sicilienne",
   "passacaglia", "chaconne", "fantasia", "ricercar", "invention", "sinfonia"]

-- ─────────────────────────────────────────────────────────────────
-- ABSTRACT SCORE MODEL (outputs of the external music21 library)
-- ─────────────────────────────────────────────────────────────────

/-- A pitch as seen by the pitch-range analyzer: continuous pitch-space
value `ps` and spelled name with octave. -/
structure PitchE where
  ps : ℚ
  nameWithOctave : String
deriving DecidableEq

/-- A pitch as seen by the complexity/chromatic analyzers: MIDI number,
and whether it carries a non-natural accidental. -/
structure PitchN where
  midi : ℕ
  accNonNatural : Bool
deriving DecidableEq

/-- One element of the flattened `.notes` stream: a single note, a chord
with its pitches, or some other NotRest object (neither branch of the
`isinstance` dispatch). -/
inductive NoteEvent where
  | note : PitchN → NoteEvent
  | chord : List PitchN → NoteEvent
  | unpitched : NoteEvent
deriving DecidableEq

/-- A measure, as far as the movement segmenter reads it: the `type` of
its right barline, when one is present. -/
structure MeasureE where
  rightBarline : Option String
deriving DecidableEq

/-- A metronome mark: numeric bpm (`number`, possibly absent), the
quarter-length of its beat-unit `referent` (absent when the mark has no
referent object), and its text label. -/
structure TempoMarkE where
  number : Option ℚ
  referent : Option ℚ
  text : Option String
deriving DecidableEq

/-- An analyzed key, reduced to what the chromatic analyzer reads: the
MIDI numbers of `key.getScale().pitches`, whose last entry duplicates the
tonic an octave up. -/
structure KeyE where
  scalePitchMidis : List ℕ
deriving DecidableEq

/-- A melody note of the first part (a `Note` instance); its interval
with a neighbour is produced by the external interval constructor, so
only its identity matters here. -/
structure MelNote where
  ps : ℚ
deriving DecidableEq

/-- A part: resolved name, its measure list, the result of enumerating
`part.flatten().pitches` (which, like any music21 call, may raise: the
`Except` error is the exception message), and its melody notes. -/
structure PartE where
  name : String
  measures : List MeasureE
  pitchesE : Except String (List PitchE)
  melNotes : List MelNote

/-- The abstract parsed score: every derived view the analyzers read.
`chordSimultaneities` lists, onset by onset, the MIDI numbers sounding in
the chordified stream. -/
structure ScoreE where
  textExpressions : List String
  parts : List PartE
  metronomeMarks : List TempoMarkE
  tempoTexts : List String
  durationQL : ℚ
  flatNotes : List NoteEvent
  flatPitches : List PitchE
  chordSimultaneities : List (List ℤ)
  analyzedKey : Option KeyE

-- ─────────────────────────────────────────────────────────────────
-- FEATURE RECORD (dictionary model: `none` = key absent)
-- ─────────────────────────────────────────────────────────────────

/-- The feature groups written by the analyzers modelled here.  A field
with value `none` models the key being absent from the Python dict.
The `texture_variation` key (a population standard deviation, an
irrational square root) is not modelled: no claim concerns it. -/
structure Rec where
  lowest_pitch : Option String := none
  highest_pitch : Option String := none
  ambitus_semitones : Option ℤ := none
  unique_pitches : Option ℕ := none
  pitch_range_per_part : Option (List (String × String × String)) := none
  voice_ranges : Option (List (String × ℤ)) := none
  measure_count : Option ℕ := none
  total_quarter_length : Option ℚ := none
  is_multi_movement : Option Bool := none
  tempo_bpm : Option ℤ := none
  tempo_referent : Option ℚ := none
  tempo_marking : Option String := none
  duration_seconds : Option ℚ := none
  event_count : Option ℕ := none
  pitch_count : Option ℕ := none
  accidental_count : Option ℕ := none
  chromatic_note_count : Option ℕ := none
  chromatic_ratio : Option ℚ := none
  interval_distribution : Option (List (String × ℕ)) := none
  interval_count : Option ℕ := none
  largest_interval : Option ℕ := none
  stepwise_count : Option ℕ := none
  simultaneous_note_avg : Option ℚ := none
  avg_chord_span : Option ℚ := none
  contrary_motion_ratio : Option ℚ := none
  parallel_motion_ratio : Option ℚ := none
  oblique_motion_ratio : Option ℚ := none
  unique_chord_count : Option ℕ := none
deriving DecidableEq

/-- The empty feature record (fresh dict). -/
def Rec.empty : Rec := {}

-- ─────────────────────────────────────────────────────────────────
-- SORTING (model of Python `sorted`, a stable ascending sort)
-- ─────────────────────────────────────────────────────────────────

/-- Stable insertion into a list sorted by `ps`. -/
def insertPitch (x : PitchE) : List PitchE → List PitchE
  | [] => [x]
  | y :: ys => if x.ps ≤ y.ps then x :: y :: ys else y :: insertPitch x ys

/-- Model of `sorted(pitches, key=lambda p: p.ps)`. -/
def sortPitches (l : List PitchE) : List PitchE := l.foldr insertPitch []

/-- Stable insertion into a sorted integer list. -/
def insertInt (x : ℤ) : List ℤ → List ℤ
  | [] => [x]
  | y :: ys => if x ≤ y then x :: y :: ys else y :: insertInt x ys

/-- Model of `sorted(c.pitches, key=lambda p: p.ps)` on MIDI numbers. -/
def sortInts (l : List ℤ) : List ℤ := l.foldr insertInt []

-- ─────────────────────────────────────────────────────────────────
-- ANALYZER PIPELINE (the shared try/except shape of every analyzer,
-- and the aggregator `extract`)
-- ─────────────────────────────────────────────────────────────────

/-- An analyzer: its name and its body.  The body receives the feature
record and returns the record as mutated so far together with the
message of the exception that escaped it, if any — Python state mutation
survives an exception, so the partially written record is kept. -/
def Analyzer : Type := String × (Rec → Rec × Option String)

/-- Pipeline state: the feature record and the `_warnings` list.  In the
source, `result["_warnings"].append(...)` occurs exactly once per
analyzer, inside its `except` clause. -/
structure PipeState where
  fr : Rec
  warnings : List String
deriving DecidableEq

/-- The try/except boundary shared by every analyzer call: run the body;
if it raised, keep the record as mutated and append one diagnostic
`"<analyzer-name>: <message>"`. -/
def runAnalyzer (a : Analyzer) (st : PipeState) : PipeState :=
  match a.2 st.fr with
  | (r, none) => ⟨r, st.warnings⟩
  | (r, some msg) => ⟨r, st.warnings ++ [a.1 ++ ": " ++ msg]⟩

/-- Run the fixed analyzer sequence in order. -/
def runPipeline (as : List Analyzer) (st : PipeState) : PipeState :=
  as.foldl (fun st a => runAnalyzer a st) st

/-- The full record around `extract`: terminal status, error, the
feature fields, presence flags for the internal working keys `_cache`
and `_analyzed_key`, the `_warnings` key, the `_extraction_warnings`
key, and `file_path` (set only by the batch entry point). -/
structure RawRecord where
  extraction_status : String
  extraction_error : Option String
  file_path : Option String
  features : Rec
  hasCacheKey : Bool
  hasAnalyzedKeyKey : Bool
  warningsField : Option (List String)
  extraction_warnings : Option (List String)
deriving DecidableEq

/-- The cleanup epilogue of `extract`: pop `_cache`, `_analyzed_key` and
`_warnings`, and expose a non-empty warnings list as
`_extraction_warnings`. -/
def cleanup (r : RawRecord) : RawRecord :=
  let ws := r.warningsField.getD []
  { r with hasCacheKey := false, hasAnalyzedKeyKey := false, warningsField := none,
           extraction_warnings := if ws.isEmpty then r.extraction_warnings else some ws }

/-- Model of `extract(file_path)`.  `parse` is the outcome of
`converter.parse` plus setup (the only raise points inside the outer
try): an exception message, or the parsed score.  `pipeline` gives the
fixed analyzer sequence for a score.  On parse failure the error string
is truncated to 1000 characters. -/
def extract (pipeline : ScoreE → List Analyzer) (parse : Except String ScoreE) : RawRecord :=
  let r0 : RawRecord :=
    { extraction_status := "pending", extraction_error := none, file_path := none,
      features := Rec.empty, hasCacheKey := false, hasAnalyzedKeyKey := false,
      warningsField := some [], extraction_warnings := none }
  let r1 := match parse with
    | .error e =>
        { r0 with extraction_status := "failed", extraction_error := some (strTake e 1000) }
    | .ok s =>
        let st := runPipeline (pipeline s) ⟨r0.features, []⟩
        { r0 with extraction_status := "extracted", hasCacheKey := true,
                  hasAnalyzedKeyKey := true, features := st.fr,
                  warningsField := some st.warnings }
  cleanup r1

/-- Model of `_extract_one(path)`: the per-file batch entry point.  The
file-system existence check and the extraction itself are parameters;
the function is total, so no exception can propagate. -/
def extract_one (extractFn : String → RawRecord) (pathExists : String → Bool)
    (path : String) : RawRecord :=
  if pathExists path = false then
    { extraction_status := "failed",
      extraction_error := some ("File not found: " ++ path),
      file_path := some path, features := Rec.empty,
      hasCacheKey := false, hasAnalyzedKeyKey := false,
      warningsField := none, extraction_warnings := none }
  else
    { extractFn path with file_path := some path }

-- ─────────────────────────────────────────────────────────────────
-- MOVEMENT SEGMENTER: is_multi_movement
-- ─────────────────────────────────────────────────────────────────

/-- The number of movement-name dictionary entries occurring as
substrings of the lower-cased, space-joined text-expression contents
(empty contents are filtered out, as by the `e.content` truthiness
test). -/
def movementCount (s : ScoreE) : ℕ :=
  let all_text := String.intercalate " " ((s.textExpressions.filter (fun c => c != "")).map lowerStr)
  MOVEMENT_NAMES.countP (fun nm => strContains all_text nm)

/-- Model of `is_multi_movement(score, result)`.  Metronome marks are
deliberately not consulted (see the source comment on the 97 percent
false-positive rate). -/
def is_multi_movement (s : ScoreE) : Bool :=
  if 2 ≤ movementCount s then true
  else
    match s.parts with
    | [] => false
    | p :: _ =>
      if 2 < p.measures.length then
        p.measures.dropLast.any
          (fun m => decide (m.rightBarline = some "final")
                    || decide (m.rightBarline = some "light-heavy"))
      else false

-- ─────────────────────────────────────────────────────────────────
-- PITCH RANGE: extract_pitch_range
-- ─────────────────────────────────────────────────────────────────

/-- The per-part loop of `extract_pitch_range`: accumulate
`pitch_range_per_part` and `voice_ranges`; enumerating a part's pitches
may raise, and the exception aborts the loop. -/
def partRangesLoop : List PartE → List (String × String × String) → List (String × ℤ) →
    Except String (List (String × String × String) × List (String × ℤ))
  | [], prs, vrs => .ok (prs, vrs)
  | p :: rest, prs, vrs =>
    match p.pitchesE with
    | .error e => .error e
    | .ok ps =>
      if ps.isEmpty then partRangesLoop rest prs vrs
      else
        let sorted := sortPitches ps
        let low := sorted.headD ⟨0, ""⟩
        let high := sorted.getLastD ⟨0, ""⟩
        partRangesLoop rest (prs ++ [(p.name, low.nameWithOctave, high.nameWithOctave)])
          (vrs ++ [(p.name, intTrunc (high.ps - low.ps))])

/-- Model of `extract_pitch_range` as an analyzer body: the whole-score
fields are written first; an exception in the per-part loop escapes to
the analyzer boundary with those keys already written. -/
def extract_pitch_range (s : ScoreE) (r : Rec) : Rec × Option String :=
  if s.flatPitches.isEmpty then (r, none)
  else
    let sorted := sortPitches s.flatPitches
    let low := sorted.headD ⟨0, ""⟩
    let high := sorted.getLastD ⟨0, ""⟩
    let r := { r with lowest_pitch := some low.nameWithOctave,
                      highest_pitch := some high.nameWithOctave,
                      ambitus_semitones := some (intTrunc (high.ps - low.ps)),
                      unique_pitches := some ((s.flatPitches.map (fun p => p.nameWithOctave)).toFinset.card) }
    match partRangesLoop s.parts [] [] with
    | .error e => (r, some e)
    | .ok (prs, vrs) =>
      ({ r with pitch_range_per_part := some prs, voice_ranges := some vrs }, none)

-- ─────────────────────────────────────────────────────────────────
-- TEMPORAL ANALYZER: extract_tempo_duration (happy path)
-- ─────────────────────────────────────────────────────────────────

/-- Count measures of the first part (`len(measures) if measures else
None`: an empty measure list writes a null, modelled as an absent
value). -/
def stage_measures (s : ScoreE) (r : Rec) : Rec :=
  match s.parts with
  | [] => r
  | p :: _ =>
    { r with measure_count := if p.measures.isEmpty then none else some p.measures.length }

/-- Record `total_quarter_length` when the raw length is truthy
(non-zero), rounded to 2 decimals. -/
def stage_total_ql (s : ScoreE) (r : Rec) : Rec :=
  if s.durationQL = 0 then r
  else { r with total_quarter_length := some (pyRound 2 s.durationQL) }

/-- The `tempo_bpm` value from a metronome mark: truncated integer, or
a null write when `number` is falsy (absent or zero). -/
def bpmOf (ft : TempoMarkE) : Option ℤ :=
  match ft.number with
  | none => none
  | some n => if n = 0 then none else some (intTrunc n)

/-- The `tempo_referent` value: the beat-unit quarter length rounded to
3 decimals when the mark has a referent, else the previous value. -/
def refFieldOf (ft : TempoMarkE) (old : Option ℚ) : Option ℚ :=
  match ft.referent with
  | none => old
  | some ql => some (pyRound 3 ql)

/-- The `tempo_marking` value: the mark's text when truthy, else the
previous value. -/
def markingOf (ft : TempoMarkE) (old : Option String) : Option String :=
  match ft.text with
  | none => old
  | some t => if t = "" then old else some t

/-- Fields taken from the first metronome mark: `tempo_bpm` (truncated
integer, null when `number` is falsy), `tempo_referent` (beat-unit
quarter length rounded to 3 decimals), `tempo_marking` (truthy text
only). -/
def stage_tempo_mark (s : ScoreE) (r : Rec) : Rec :=
  match s.metronomeMarks with
  | [] => r
  | ft :: _ =>
    { r with tempo_bpm := bpmOf ft,
             tempo_referent := refFieldOf ft r.tempo_referent,
             tempo_marking := markingOf ft r.tempo_marking }

/-- Fallback: a standalone tempo-text element supplies `tempo_marking`
when the metronome mark carried none. -/
def stage_marking_fallback (s : ScoreE) (r : Rec) : Rec :=
  if r.tempo_marking = none then
    match s.tempoTexts with
    | [] => r
    | t :: _ => { r with tempo_marking := some t }
  else r

/-- The referent used by the duration formula: the stored
`tempo_referent` when present and positive, else 1 (plain quarter). -/
def refOf : Option ℚ → ℚ
  | some t => if 0 < t then t else 1
  | none => 1

/-- The duration calculation: `duration = total_ql / (bpm * referent) *
60`, rounded to 1 decimal, guarded by truthiness and positivity of
`tempo_bpm` and `total_quarter_length`. -/
def stage_duration (r : Rec) : Rec :=
  match r.tempo_bpm, r.total_quarter_length with
  | some b, some q =>
    if 0 < b ∧ 0 < q then
      { r with duration_seconds := some (pyRound 1 (q / ((b : ℚ) * refOf r.tempo_referent) * 60)) }
    else r
  | _, _ => r

/-- Model of the body of `extract_tempo_duration` (its try block never
raises in this happy-path model; the generic analyzer boundary covers
the exceptional shape). -/
def extract_tempo_duration (s : ScoreE) (r : Rec) : Rec :=
  let r := stage_measures s r
  let r := stage_total_ql s r
  let multi := is_multi_movement s
  let r := { r with is_multi_movement := some multi }
  if multi then r
  else stage_duration (stage_marking_fallback s (stage_tempo_mark s r))

-- ─────────────────────────────────────────────────────────────────
-- COMPLEXITY: extract_complexity
-- ─────────────────────────────────────────────────────────────────

/-- Pitches carried by one element of the notes stream (the
`isinstance` dispatch of the source: a note contributes its single
pitch, a chord its pitch list, anything else nothing). -/
def notePitches : NoteEvent → List PitchN
  | .note p => [p]
  | .chord ps => ps
  | .unpitched => []

/-- Individual pitched sounds in the notes stream (`pitch_count`). -/
def pitchCountOf (l : List NoteEvent) : ℕ :=
  l.foldl (fun acc n => acc + (notePitches n).length) 0

/-- Pitches with a non-natural accidental (`accidental_count`). -/
def accidentalCountOf (l : List NoteEvent) : ℕ :=
  l.foldl (fun acc n => acc + (notePitches n).countP (fun p => p.accNonNatural)) 0

/-- Model of the body of `extract_complexity`. -/
def extract_complexity (s : ScoreE) (r : Rec) : Rec :=
  { r with event_count := some s.flatNotes.length,
           pitch_count := some (pitchCountOf s.flatNotes),
           accidental_count := some (accidentalCountOf s.flatNotes) }

-- ─────────────────────────────────────────────────────────────────
-- CHROMATIC ANALYZER: extract_chromatic_notes
-- ─────────────────────────────────────────────────────────────────

/-- The diatonic pitch classes of the analyzed key:
`{p.midi % 12 for p in key_scale.pitches[:-1]}` (the slice drops the
octave duplicate). -/
def diatonicPCs (k : KeyE) : Finset ℕ :=
  (k.scalePitchMidis.dropLast.map (fun m => m % 12)).toFinset

/-- Count of pitches (inside notes and chords) whose pitch class is
outside the diatonic set. -/
def chromaticCountOf (dia : Finset ℕ) (l : List NoteEvent) : ℕ :=
  l.foldl (fun acc n => acc + (notePitches n).countP (fun p => decide (p.midi % 12 ∉ dia))) 0

/-- Model of the body of `extract_chromatic_notes`: requires a resolved
key; emits the chromatic count, and the ratio against an
already-recorded positive `pitch_count` rounded to 3 decimals. -/
def extract_chromatic_notes (s : ScoreE) (r : Rec) : Rec :=
  match s.analyzedKey with
  | none => r
  | some k =>
    let cnt := chromaticCountOf (diatonicPCs k) s.flatNotes
    let r := { r with chromatic_note_count := some cnt }
    match r.pitch_count with
    | some pc =>
      if 0 < pc then { r with chromatic_ratio := some (pyRound 3 ((cnt : ℚ) / (pc : ℚ))) }
      else r
    | none => r

-- ─────────────────────────────────────────────────────────────────
-- MELODIC ANALYZER: extract_melody
-- ─────────────────────────────────────────────────────────────────

/-- The result of the external `interval.Interval(n1, n2)` constructor:
its `simpleName` label and its signed `semitones`. -/
structure IntervalM where
  simpleName : String
  semitones : ℤ
deriving DecidableEq

/-- Content model of `collections.Counter` over a list of labels: each
distinct label paired with its multiplicity.  The ordering that
`most_common()` would impose is not modelled; no claim depends on it. -/
def counterOf (names : List String) : List (String × ℕ) :=
  names.dedup.map (fun nm => (nm, names.count nm))

/-- Maximum of a list of naturals, as Python `max` over a non-empty
list. -/
def maxNat (l : List ℕ) : ℕ := l.foldl max 0

/-- Model of the body of `extract_melody`.  `icalc` is the external
interval constructor; `none` models the per-pair exception that the
inner `try` swallows.  Only `Note` instances of the first part are
considered, and fewer than 2 of them short-circuits with no fields. -/
def extract_melody (icalc : MelNote → MelNote → Option IntervalM)
    (s : ScoreE) (r : Rec) : Rec :=
  match s.parts with
  | [] => r
  | p :: _ =>
    if p.melNotes.length < 2 then r
    else
      let results := (p.melNotes.zip p.melNotes.tail).filterMap (fun ab => icalc ab.1 ab.2)
      let names := results.map (fun iv => iv.simpleName)
      let semis := results.map (fun iv => iv.semitones.natAbs)
      let stepwise := results.countP (fun iv => iv.semitones.natAbs ≤ 2)
      let r := if names.isEmpty then r else
        { r with interval_distribution := some (counterOf names),
                 interval_count := some semis.length }
      if semis.isEmpty then r else
        { r with largest_interval := some (maxNat semis),
                 stepwise_count := some stepwise }

-- ─────────────────────────────────────────────────────────────────
-- TEXTURE ANALYZER: extract_texture
-- ─────────────────────────────────────────────────────────────────

/-- The pitch-class set of a simultaneity:
`frozenset(p.pitchClass for p in pitches)`. -/
def pcSet (c : List ℤ) : Finset ℤ := (c.map (fun p => p % 12)).toFinset

/-- The running state of the single pass of `extract_texture` over the
chordified stream. -/
structure TexState where
  note_counts : List ℕ
  chord_spans : List ℚ
  unique_chords : Finset (Finset ℤ)
  prev_bass : Option ℤ
  prev_soprano : Option ℤ
  contrary_count : ℕ
  parallel_count : ℕ
  oblique_count : ℕ
  total_transitions : ℕ

/-- Initial texture state. -/
def initTex : TexState := ⟨[], [], ∅, none, none, 0, 0, 0, 0⟩

/-- Texture density: `note_counts.append(len(pitches))`. -/
def densityStep (st : TexState) (pitches : List ℤ) : TexState :=
  { st with note_counts := st.note_counts ++ [pitches.length] }

/-- Unique chord collection: insert the pitch-class set of the sorted
pitches when its size is 3 or 4 (triads and sevenths only). -/
def uniqueChordStep (st : TexState) (pitches : List ℤ) : TexState :=
  if 3 ≤ ((pitches.map (fun p => p % 12)).toFinset).card
      ∧ ((pitches.map (fun p => p % 12)).toFinset).card ≤ 4 then
    { st with unique_chords := insert ((pitches.map (fun p => p % 12)).toFinset) st.unique_chords }
  else st

/-- Outer-voice motion classification against the previous simultaneity:
a transition counts when at least one outer voice moves; both moving in
different sign directions is contrary, in the same direction parallel;
exactly one moving is oblique. -/
def classifyStep (st : TexState) (bass soprano : ℤ) : TexState :=
  match st.prev_bass, st.prev_soprano with
  | some pb, some psop =>
    if bass - pb ≠ 0 ∨ soprano - psop ≠ 0 then
      if bass - pb ≠ 0 ∧ soprano - psop ≠ 0 then
        if decide (0 < bass - pb) ≠ decide (0 < soprano - psop) then
          { st with total_transitions := st.total_transitions + 1,
                    contrary_count := st.contrary_count + 1 }
        else
          { st with total_transitions := st.total_transitions + 1,
                    parallel_count := st.parallel_count + 1 }
      else
        { st with total_transitions := st.total_transitions + 1,
                  oblique_count := st.oblique_count + 1 }
    else st
  | _, _ => st

/-- Span and motion handling for one simultaneity: with at least 2 notes
record the span, classify the outer-voice motion, and remember
bass/soprano; a single-note simultaneity resets the voice-leading
chain. -/
def motionStep (st : TexState) (pitches : List ℤ) : TexState :=
  if 2 ≤ pitches.length then
    let bass := pitches.headD 0
    let soprano := pitches.getLastD 0
    let st1 := classifyStep
      { st with chord_spans := st.chord_spans ++ [((soprano - bass : ℤ) : ℚ)] } bass soprano
    { st1 with prev_bass := some bass, prev_soprano := some soprano }
  else { st with prev_bass := none, prev_soprano := none }

/-- One iteration of the texture loop over a simultaneity `c` (its MIDI
numbers).  Mirrors the source loop: empty chords are skipped; the other
steps run on the sorted pitches. -/
def texStep (st : TexState) (c : List ℤ) : TexState :=
  if (sortInts c).isEmpty then st
  else motionStep (uniqueChordStep (densityStep st (sortInts c)) (sortInts c)) (sortInts c)

/-- The texture pass over the whole chordified stream. -/
def texFold (s : ScoreE) : TexState :=
  s.chordSimultaneities.foldl texStep initTex

/-- Average simultaneous note count, when any simultaneity was seen. -/
def texAvgStage (st : TexState) (r : Rec) : Rec :=
  if st.note_counts.isEmpty then r
  else { r with simultaneous_note_avg :=
                  some (pyRound 2 ((st.note_counts.sum : ℚ) / (st.note_counts.length : ℚ))) }

/-- Average chord span, when any 2-note simultaneity was seen. -/
def texSpanStage (st : TexState) (r : Rec) : Rec :=
  if st.chord_spans.isEmpty then r
  else { r with avg_chord_span :=
                  some (pyRound 2 (st.chord_spans.sum / (st.chord_spans.length : ℚ))) }

/-- The three motion ratios, emitted only when at least one qualifying
transition exists. -/
def texMotionStage (st : TexState) (r : Rec) : Rec :=
  if 0 < st.total_transitions then
    { r with contrary_motion_ratio :=
               some (pyRound 3 ((st.contrary_count : ℚ) / (st.total_transitions : ℚ))),
             parallel_motion_ratio :=
               some (pyRound 3 ((st.parallel_count : ℚ) / (st.total_transitions : ℚ))),
             oblique_motion_ratio :=
               some (pyRound 3 ((st.oblique_count : ℚ) / (st.total_transitions : ℚ))) }
  else r

/-- `unique_chord_count`, emitted only when the set is non-empty. -/
def texUniqueStage (st : TexState) (r : Rec) : Rec :=
  if st.unique_chords.card = 0 then r
  else { r with unique_chord_count := some st.unique_chords.card }

/-- Model of the body of `extract_texture` (the `texture_variation`
standard deviation, an irrational square root, is the one field not
modelled; no claim concerns it). -/
def extract_texture (s : ScoreE) (r : Rec) : Rec :=
  if s.parts.isEmpty then r
  else texUniqueStage (texFold s)
        (texMotionStage (texFold s) (texSpanStage (texFold s) (texAvgStage (texFold s) r)))

-- ─────────────────────────────────────────────────────────────────
-- CONCRETE INPUTS (used by witnesses and counterexamples)
-- ─────────────────────────────────────────────────────────────────
/-- A score whose only movement-like signal is two tempo changes: no
movement-name text, two metronome marks, two measures without special
barlines. -/
def twoTempoScore : ScoreE :=
  { textExpressions := [],
    parts := [{ name := "P1",
                measures := [{ rightBarline := none }, { rightBarline := none }],
                pitchesE := .ok [], melNotes := [] }],
    metronomeMarks := [{ number := some 148, referent := none, text := some "Schnell" },
                       { number := some 80, referent := none, text := some "Andante" }],
    tempoTexts := [], durationQL := 8, flatNotes := [], flatPitches := [],
    chordSimultaneities := [], analyzedKey := none }

/-- A suite with two movement-name text expressions. -/
def suiteScore : ScoreE :=
  { textExpressions := ["Allemande", "Courante"], parts := [], metronomeMarks := [],
    tempoTexts := [], durationQL := 4, flatNotes := [], flatPitches := [],
    chordSimultaneities := [], analyzedKey := none }

/-- The concrete score of the claim: one metronome mark with bpm 120 and
dotted-quarter referent, total length 30 quarters. -/
def formulaScore : ScoreE :=
  { textExpressions := [], parts := [],
    metronomeMarks := [{ number := some 120, referent := some (3/2), text := some "Allegro" }],
    tempoTexts := [], durationQL := 30, flatNotes := [], flatPitches := [],
    chordSimultaneities := [], analyzedKey := none }

/-- A score on which enumerating the first part's pitches raises, while
the flattened pitch list itself is fine: the pitch-range analyzer
writes its whole-score keys and then fails in its per-part loop. -/
def pitchFailScore : ScoreE :=
  { textExpressions := [],
    parts := [{ name := "P1", measures := [], pitchesE := .error "boom", melNotes := [] }],
    metronomeMarks := [], tempoTexts := [], durationQL := 0,
    flatNotes := [], flatPitches := [{ ps := 60, nameWithOctave := "C4" }],
    chordSimultaneities := [], analyzedKey := none }

/-- A placeholder extraction function for the witness. -/
def dummyRaw : RawRecord :=
  { extraction_status := "x", extraction_error := none, file_path := none,
    features := Rec.empty, hasCacheKey := false, hasAnalyzedKeyKey := false,
    warningsField := none, extraction_warnings := none }

/-- A score with nothing in it, for the C10 witness. -/
def emptyScore : ScoreE :=
  { textExpressions := [], parts := [], metronomeMarks := [], tempoTexts := [],
    durationQL := 0, flatNotes := [], flatPitches := [],
    chordSimultaneities := [], analyzedKey := none }

/-- A strictly diatonic two-note score in C major, for the witness. -/
def diatonicScore : ScoreE :=
  { textExpressions := [], parts := [], metronomeMarks := [], tempoTexts := [],
    durationQL := 0,
    flatNotes := [.note { midi := 60, accNonNatural := false },
                  .note { midi := 64, accNonNatural := false }],
    flatPitches := [], chordSimultaneities := [],
    analyzedKey := some { scalePitchMidis := [60, 62, 64, 65, 67, 69, 71, 72] } }

/-- A three-note first part for the witness. -/
def mel3Part : PartE :=
  { name := "P1", measures := [], pitchesE := .ok [],
    melNotes := [{ ps := 60 }, { ps := 62 }, { ps := 64 }] }

/-- Score whose first part is `mel3Part`. -/
def mel3Score : ScoreE :=
  { textExpressions := [], parts := [mel3Part], metronomeMarks := [], tempoTexts := [],
    durationQL := 0, flatNotes := [], flatPitches := [],
    chordSimultaneities := [], analyzedKey := none }

/-- An interval oracle that labels every pair a major second of 2
semitones. -/
def constM2 : MelNote → MelNote → Option IntervalM :=
  fun _ _ => some { simpleName := "M2", semitones := 2 }

/-- A score with two parallel-motion simultaneities for the witness. -/
def parallelScore : ScoreE :=
  { textExpressions := [],
    parts := [{ name := "P1", measures := [], pitchesE := .ok [], melNotes := [] }],
    metronomeMarks := [], tempoTexts := [], durationQL := 0,
    flatNotes := [], flatPitches := [],
    chordSimultaneities := [[60, 72], [62, 74]], analyzedKey := none }

/-- The contribution of one simultaneity to the unique-chord set: its
pitch-class set when that set has 3 or 4 elements, nothing otherwise. -/
def chordFilter (c : List ℤ) : Option (Finset ℤ) :=
  if 3 ≤ (pcSet c).card ∧ (pcSet c).card ≤ 4 then some (pcSet c) else none

/-- The set of distinct size-3/4 pitch-class sets of a chordified
stream. -/
def chordSetOf (l : List (List ℤ)) : Finset (Finset ℤ) :=
  (l.filterMap chordFilter).toFinset

/-- A score repeating the same triad an octave higher, for the
witness. -/
def octaveScore : ScoreE :=
  { textExpressions := [],
    parts := [{ name := "P1", measures := [], pitchesE := .ok [], melNotes := [] }],
    metronomeMarks := [], tempoTexts := [], durationQL := 0,
    flatNotes := [], flatPitches := [],
    chordSimultaneities := [[60, 64, 67], [72, 76, 79]], analyzedKey := none }

-- ─────────────────────────────────────────────────────────────────
-- THEOREMS
-- ─────────────────────────────────────────────────────────────────

theorem pyFloor_eq (q : ℚ) : pyFloor q = ⌊q⌋ := Rat.floor_def.symm

theorem pyRoundInt_cases (x : ℚ) :
    pyRoundInt x = ⌊x⌋ ∨ pyRoundInt x = ⌊x⌋ + 1 := by
  unfold pyRoundInt
  rw [pyFloor_eq]
  split
  · exact Or.inl rfl
  · split
    · exact Or.inr rfl
    · split
      · exact Or.inl rfl
      · exact Or.inr rfl

theorem floor_le_pyRoundInt (x : ℚ) : ⌊x⌋ ≤ pyRoundInt x := by
  rcases pyRoundInt_cases x with h | h <;> omega

theorem pyRoundInt_le_ceil (x : ℚ) : pyRoundInt x ≤ ⌈x⌉ := by
  rcases pyRoundInt_cases x with h | h
  · exact h ▸ Int.floor_le_ceil x
  · have hfrac : ¬ (x - ⌊x⌋ < 1/2) := by
      by_contra hc
      unfold pyRoundInt at h
      rw [pyFloor_eq, if_pos hc] at h
      omega
    have hpos : (0 : ℚ) < x - ⌊x⌋ := by
      have : (0 : ℚ) ≤ 1/2 := by norm_num
      nlinarith [not_lt.mp hfrac]
    have hlt : (⌊x⌋ : ℚ) < x := by linarith
    have hle : x ≤ (⌈x⌉ : ℚ) := Int.le_ceil x
    have : (⌊x⌋ : ℚ) < (⌈x⌉ : ℚ) := lt_of_lt_of_le hlt hle
    have hfc : ⌊x⌋ < ⌈x⌉ := by exact_mod_cast this
    omega

theorem abs_pyRoundInt_sub (x : ℚ) : |(pyRoundInt x : ℚ) - x| ≤ 1/2 := by
  have hfl : (⌊x⌋ : ℚ) ≤ x := Int.floor_le x
  have hfr : x - ⌊x⌋ < 1 := by
    have := Int.lt_floor_add_one x
    linarith
  unfold pyRoundInt
  rw [pyFloor_eq]
  split
  · rw [abs_le]
    constructor <;> linarith
  · rename_i h1
    push_neg at h1
    split
    · rename_i h2
      rw [abs_le]
      constructor <;> (try push_cast) <;> linarith
    · rename_i h2
      push_neg at h2
      have heq : x - ⌊x⌋ = 1/2 := le_antisymm h2 h1
      split <;> (rw [abs_le]; constructor <;> (try push_cast) <;> linarith)

theorem abs_pyRound_sub (prec : ℕ) (x : ℚ) :
    |pyRound prec x - x| ≤ 1 / (2 * 10 ^ prec) := by
  have hp : (0 : ℚ) < 10 ^ prec := by positivity
  have h := abs_pyRoundInt_sub (x * 10 ^ prec)
  unfold pyRound
  have key : (pyRoundInt (x * 10 ^ prec) : ℚ) / 10 ^ prec - x
      = ((pyRoundInt (x * 10 ^ prec) : ℚ) - x * 10 ^ prec) / 10 ^ prec := by
    field_simp
    ring
  rw [key, abs_div, abs_of_pos hp, div_le_div_iff₀ hp (by positivity)]
  calc |(pyRoundInt (x * 10 ^ prec) : ℚ) - x * 10 ^ prec| * (2 * 10 ^ prec)
      ≤ (1/2) * (2 * 10 ^ prec) := by
        apply mul_le_mul_of_nonneg_right h
        positivity
    _ = 1 * 10 ^ prec := by ring

theorem pyRound_nonneg (prec : ℕ) (x : ℚ) (hx : 0 ≤ x) : 0 ≤ pyRound prec x := by
  have hp : (0 : ℚ) < 10 ^ prec := by positivity
  have h0 : (0 : ℤ) ≤ ⌊x * 10 ^ prec⌋ := by
    apply Int.floor_nonneg.mpr
    positivity
  have h1 : (0 : ℤ) ≤ pyRoundInt (x * 10 ^ prec) :=
    le_trans h0 (floor_le_pyRoundInt _)
  unfold pyRound
  apply div_nonneg _ (le_of_lt hp)
  exact_mod_cast h1

theorem pyRound_le_one (prec : ℕ) (x : ℚ) (hx : x ≤ 1) : pyRound prec x ≤ 1 := by
  have hp : (0 : ℚ) < 10 ^ prec := by positivity
  have hc : ⌈x * 10 ^ prec⌉ ≤ (10 ^ prec : ℤ) := by
    apply Int.ceil_le.mpr
    push_cast
    calc x * 10 ^ prec ≤ 1 * 10 ^ prec := by
          apply mul_le_mul_of_nonneg_right hx (le_of_lt hp)
      _ = 10 ^ prec := one_mul _
  have h1 : pyRoundInt (x * 10 ^ prec) ≤ (10 ^ prec : ℤ) :=
    le_trans (pyRoundInt_le_ceil _) hc
  unfold pyRound
  rw [div_le_one hp]
  exact_mod_cast h1

theorem pyRound_zero (prec : ℕ) : pyRound prec 0 = 0 := by
  have h : pyRoundInt 0 = 0 := by
    unfold pyRoundInt pyFloor
    norm_num
  unfold pyRound
  rw [zero_mul, h]
  norm_num

theorem insertInt_perm (x : ℤ) (l : List ℤ) : (insertInt x l).Perm (x :: l) := by
  induction l with
  | nil => exact List.Perm.refl _
  | cons y ys ih =>
    unfold insertInt
    split
    · exact List.Perm.refl _
    · exact ((ih.cons y).trans (List.Perm.swap x y ys))

theorem sortInts_perm (l : List ℤ) : (sortInts l).Perm l := by
  induction l with
  | nil => exact List.Perm.refl _
  | cons x xs ih =>
    exact (insertInt_perm x (sortInts xs)).trans (ih.cons x)

theorem sortInts_isEmpty (l : List ℤ) : (sortInts l).isEmpty = l.isEmpty := by
  rcases l with _ | ⟨x, xs⟩
  · rfl
  · have h := sortInts_perm (x :: xs)
    rcases hs : sortInts (x :: xs) with _ | ⟨y, ys⟩
    · exact absurd (hs ▸ h).symm (by simp)
    · rfl

theorem sortInts_length (l : List ℤ) : (sortInts l).length = l.length :=
  (sortInts_perm l).length_eq

-- ─────────────────────────────────────────────────────────────────
-- STAGE LEMMAS for extract_tempo_duration
-- ─────────────────────────────────────────────────────────────────

theorem stage_measures_keeps (s : ScoreE) (r : Rec) :
    (stage_measures s r).total_quarter_length = r.total_quarter_length
    ∧ (stage_measures s r).tempo_bpm = r.tempo_bpm
    ∧ (stage_measures s r).tempo_referent = r.tempo_referent
    ∧ (stage_measures s r).tempo_marking = r.tempo_marking
    ∧ (stage_measures s r).duration_seconds = r.duration_seconds := by
  unfold stage_measures
  split <;> exact ⟨rfl, rfl, rfl, rfl, rfl⟩

theorem stage_total_ql_keeps (s : ScoreE) (r : Rec) :
    (stage_total_ql s r).measure_count = r.measure_count
    ∧ (stage_total_ql s r).tempo_bpm = r.tempo_bpm
    ∧ (stage_total_ql s r).tempo_referent = r.tempo_referent
    ∧ (stage_total_ql s r).tempo_marking = r.tempo_marking
    ∧ (stage_total_ql s r).duration_seconds = r.duration_seconds := by
  unfold stage_total_ql
  split <;> exact ⟨rfl, rfl, rfl, rfl, rfl⟩

theorem stage_tempo_mark_keeps (s : ScoreE) (r : Rec) :
    (stage_tempo_mark s r).measure_count = r.measure_count
    ∧ (stage_tempo_mark s r).total_quarter_length = r.total_quarter_length
    ∧ (stage_tempo_mark s r).is_multi_movement = r.is_multi_movement
    ∧ (stage_tempo_mark s r).duration_seconds = r.duration_seconds := by
  unfold stage_tempo_mark
  split <;> exact ⟨rfl, rfl, rfl, rfl⟩

theorem stage_marking_fallback_keeps (s : ScoreE) (r : Rec) :
    (stage_marking_fallback s r).measure_count = r.measure_count
    ∧ (stage_marking_fallback s r).total_quarter_length = r.total_quarter_length
    ∧ (stage_marking_fallback s r).is_multi_movement = r.is_multi_movement
    ∧ (stage_marking_fallback s r).tempo_bpm = r.tempo_bpm
    ∧ (stage_marking_fallback s r).tempo_referent = r.tempo_referent
    ∧ (stage_marking_fallback s r).duration_seconds = r.duration_seconds := by
  unfold stage_marking_fallback
  split
  · split <;> exact ⟨rfl, rfl, rfl, rfl, rfl, rfl⟩
  · exact ⟨rfl, rfl, rfl, rfl, rfl, rfl⟩

theorem stage_duration_keeps (r : Rec) :
    (stage_duration r).measure_count = r.measure_count
    ∧ (stage_duration r).total_quarter_length = r.total_quarter_length
    ∧ (stage_duration r).is_multi_movement = r.is_multi_movement
    ∧ (stage_duration r).tempo_bpm = r.tempo_bpm
    ∧ (stage_duration r).tempo_referent = r.tempo_referent
    ∧ (stage_duration r).tempo_marking = r.tempo_marking := by
  unfold stage_duration
  split
  · split
    · exact ⟨rfl, rfl, rfl, rfl, rfl, rfl⟩
    · exact ⟨rfl, rfl, rfl, rfl, rfl, rfl⟩
  · exact ⟨rfl, rfl, rfl, rfl, rfl, rfl⟩

theorem stage_duration_set (r : Rec) (b : ℤ) (q : ℚ)
    (hb : r.tempo_bpm = some b) (hq : r.total_quarter_length = some q)
    (hbp : 0 < b) (hqp : 0 < q) :
    (stage_duration r).duration_seconds
      = some (pyRound 1 (q / ((b : ℚ) * refOf r.tempo_referent) * 60)) := by
  unfold stage_duration
  rw [hb, hq]
  dsimp only
  rw [if_pos ⟨hbp, hqp⟩]

theorem stage_duration_not_set (r : Rec)
    (h : ¬ ((∃ b, r.tempo_bpm = some b ∧ 0 < b)
            ∧ (∃ q, r.total_quarter_length = some q ∧ 0 < q))) :
    (stage_duration r).duration_seconds = r.duration_seconds := by
  unfold stage_duration
  split
  · rename_i b q hb hq
    split
    · rename_i hc
      exact absurd ⟨⟨b, hb, hc.1⟩, ⟨q, hq, hc.2⟩⟩ h
    · rfl
  · rfl

-- ─────────────────────────────────────────────────────────────────
-- CONCRETE EVALUATION HELPERS
-- ─────────────────────────────────────────────────────────────────

theorem pyRound_int (p : ℕ) (x : ℚ) (m : ℤ) (h : x * 10 ^ p = (m : ℚ)) :
    pyRound p x = (m : ℚ) / 10 ^ p := by
  unfold pyRound pyRoundInt
  rw [h]
  simp only [pyFloor_eq, Int.floor_intCast]
  rw [if_pos (by norm_num : ((m : ℚ) - ((m : ℤ) : ℚ) < 1/2))]

theorem intTrunc_nonneg_int (n : ℤ) (hn : 0 ≤ n) : intTrunc (n : ℚ) = n := by
  unfold intTrunc
  rw [if_pos (by exact_mod_cast hn), pyFloor_eq, Int.floor_intCast]

-- ─────────────────────────────────────────────────────────────────
-- CLAIM C2: the multi-movement predicate
-- ─────────────────────────────────────────────────────────────────

theorem multi_movement_iff (s : ScoreE) :
    is_multi_movement s = true ↔
      (2 ≤ movementCount s ∨
        ∃ p rest, s.parts = p :: rest ∧ 2 < p.measures.length ∧
          ∃ m ∈ p.measures.dropLast,
            (m.rightBarline = some "final" ∨ m.rightBarline = some "light-heavy")) := by
  unfold is_multi_movement
  split
  · rename_i h
    exact iff_of_true rfl (Or.inl h)
  · rename_i h
    split
    · rename_i heq
      refine iff_of_false (by simp) ?_
      rintro (h2 | ⟨p, rest, hp, -⟩)
      · exact h h2
      · rw [heq] at hp
        exact List.noConfusion hp
    · rename_i p rest heq
      split
      · rename_i hlen
        rw [List.any_eq_true]
        constructor
        · rintro ⟨m, hmem, hdec⟩
          refine Or.inr ⟨p, rest, heq, hlen, m, hmem, ?_⟩
          rcases Bool.or_eq_true_iff.mp hdec with hd | hd
          · exact Or.inl (of_decide_eq_true hd)
          · exact Or.inr (of_decide_eq_true hd)
        · rintro (h2 | ⟨p', rest', hp, hlen', m, hmem, hor⟩)
          · exact absurd h2 h
          · rw [heq] at hp
            obtain ⟨rfl, rfl⟩ : p' = p ∧ rest' = rest := by
              exact ⟨(List.cons.injEq _ _ _ _ ▸ hp).1.symm, (List.cons.injEq _ _ _ _ ▸ hp).2.symm⟩
            refine ⟨m, hmem, ?_⟩
            rcases hor with hd | hd
            · exact Bool.or_eq_true_iff.mpr (Or.inl (decide_eq_true hd))
            · exact Bool.or_eq_true_iff.mpr (Or.inr (decide_eq_true hd))
      · rename_i hlen
        refine iff_of_false (by simp) ?_
        rintro (h2 | ⟨p', rest', hp, hlen', -⟩)
        · exact h h2
        · rw [heq] at hp
          have : p' = p := (List.cons.injEq _ _ _ _ ▸ hp).1.symm
          exact hlen (this ▸ hlen')

/-- C2: the multi-movement predicate is true iff at least 2 distinct
movement-name dictionary entries occur as substrings of the lower-cased
joined text expressions, or the first part has more than 2 measures and
an internal final/light-heavy right barline; metronome marks never
influence the result, and with at most one matching name and no internal
qualifying barline the predicate is false. -/
theorem c2_multi_movement_characterization (s : ScoreE) :
    (is_multi_movement s = true ↔
      (2 ≤ movementCount s ∨
        ∃ p rest, s.parts = p :: rest ∧ 2 < p.measures.length ∧
          ∃ m ∈ p.measures.dropLast,
            (m.rightBarline = some "final" ∨ m.rightBarline = some "light-heavy")))
    ∧ (∀ tm tm' : List TempoMarkE,
        is_multi_movement { s with metronomeMarks := tm }
          = is_multi_movement { s with metronomeMarks := tm' })
    ∧ (movementCount s ≤ 1 →
        (∀ p rest, s.parts = p :: rest →
          ∀ m ∈ p.measures.dropLast,
            m.rightBarline ≠ some "final" ∧ m.rightBarline ≠ some "light-heavy") →
        is_multi_movement s = false) := by
  refine ⟨multi_movement_iff s, fun tm tm' => rfl, fun hmc hbar => ?_⟩
  cases hb : is_multi_movement s with
  | false => rfl
  | true =>
    rcases (multi_movement_iff s).mp hb with h2 | ⟨p, rest, hp, hlen, m, hmem, hor⟩
    · omega
    · rcases hor with hd | hd
      · exact absurd hd (hbar p rest hp m hmem).1
      · exact absurd hd (hbar p rest hp m hmem).2

theorem c2_witness :
    movementCount twoTempoScore ≤ 1 ∧ is_multi_movement twoTempoScore = false := by
  refine ⟨by decide, ?_⟩
  refine (c2_multi_movement_characterization twoTempoScore).2.2 (by decide) ?_
  intro p rest hp m hmem
  rw [show p = { name := "P1",
                 measures := [{ rightBarline := none }, { rightBarline := none }],
                 pitchesE := .ok [], melNotes := [] } from (List.cons.injEq _ _ _ _ ▸ hp).1.symm] at hmem
  simp at hmem
  rw [hmem]
  exact ⟨by decide, by decide⟩

-- ─────────────────────────────────────────────────────────────────
-- CLAIM C1: multi-movement suppresses the tempo group
-- ─────────────────────────────────────────────────────────────────

/-- C1: when the extraction reports `is_multi_movement = true`, none of
`tempo_bpm`, `tempo_marking`, `tempo_referent`, `duration_seconds` are
present in the resulting record, while `measure_count` and
`total_quarter_length` are still extracted when available. -/
theorem c1_multi_movement_suppresses_tempo (s : ScoreE) (r : Rec)
    (hm : is_multi_movement s = true)
    (h1 : r.tempo_bpm = none) (h2 : r.tempo_marking = none)
    (h3 : r.tempo_referent = none) (h4 : r.duration_seconds = none) :
    (extract_tempo_duration s r).is_multi_movement = some true
    ∧ (extract_tempo_duration s r).tempo_bpm = none
    ∧ (extract_tempo_duration s r).tempo_marking = none
    ∧ (extract_tempo_duration s r).tempo_referent = none
    ∧ (extract_tempo_duration s r).duration_seconds = none
    ∧ (∀ p rest, s.parts = p :: rest → p.measures ≠ [] →
        (extract_tempo_duration s r).measure_count = some p.measures.length)
    ∧ (s.durationQL ≠ 0 →
        (extract_tempo_duration s r).total_quarter_length = some (pyRound 2 s.durationQL)) := by
  have hE : extract_tempo_duration s r
      = { stage_total_ql s (stage_measures s r) with is_multi_movement := some true } := by
    unfold extract_tempo_duration
    rw [hm]
    simp
  obtain ⟨km1, km2, km3, km4, km5⟩ := stage_measures_keeps s r
  obtain ⟨kt1, kt2, kt3, kt4, kt5⟩ := stage_total_ql_keeps s (stage_measures s r)
  rw [hE]
  refine ⟨rfl, ?_, ?_, ?_, ?_, ?_, ?_⟩
  · show (stage_total_ql s (stage_measures s r)).tempo_bpm = none
    rw [kt2, km2, h1]
  · show (stage_total_ql s (stage_measures s r)).tempo_marking = none
    rw [kt4, km4, h2]
  · show (stage_total_ql s (stage_measures s r)).tempo_referent = none
    rw [kt3, km3, h3]
  · show (stage_total_ql s (stage_measures s r)).duration_seconds = none
    rw [kt5, km5, h4]
  · intro p rest hp hne
    show (stage_total_ql s (stage_measures s r)).measure_count = some p.measures.length
    rw [kt1]
    unfold stage_measures
    rw [hp]
    dsimp only
    rw [if_neg (by simp [hne])]
  · intro hql
    show (stage_total_ql s (stage_measures s r)).total_quarter_length
        = some (pyRound 2 s.durationQL)
    unfold stage_total_ql
    rw [if_neg hql]

theorem c1_witness :
    is_multi_movement suiteScore = true
    ∧ (extract_tempo_duration suiteScore Rec.empty).tempo_bpm = none
    ∧ (extract_tempo_duration suiteScore Rec.empty).duration_seconds = none :=
  ⟨by decide,
   (c1_multi_movement_suppresses_tempo suiteScore Rec.empty (by decide) rfl rfl rfl rfl).2.1,
   (c1_multi_movement_suppresses_tempo suiteScore Rec.empty (by decide) rfl rfl rfl rfl).2.2.2.2.1⟩

-- ─────────────────────────────────────────────────────────────────
-- CLAIM C3: the duration formula
-- ─────────────────────────────────────────────────────────────────

theorem stage_duration_iff (r : Rec) (hd : r.duration_seconds = none) :
    (∃ d, (stage_duration r).duration_seconds = some d) ↔
      ((∃ b, r.tempo_bpm = some b ∧ 0 < b)
        ∧ (∃ q, r.total_quarter_length = some q ∧ 0 < q)) := by
  constructor
  · rintro ⟨d, hdd⟩
    by_contra hc
    rw [stage_duration_not_set r hc, hd] at hdd
    exact Option.noConfusion hdd
  · rintro ⟨⟨b, hb, hbp⟩, ⟨q, hq, hqp⟩⟩
    exact ⟨_, stage_duration_set r b q hb hq hbp hqp⟩

theorem formulaScore_eval :
    extract_tempo_duration formulaScore Rec.empty
      = { Rec.empty with total_quarter_length := some 30, is_multi_movement := some false,
                         tempo_bpm := some 120, tempo_referent := some (3/2),
                         tempo_marking := some "Allegro", duration_seconds := some 10 } := by
  have hmf : is_multi_movement formulaScore = false := by decide
  have h30 : pyRound 2 (30 : ℚ) = 30 := by
    rw [pyRound_int 2 30 3000 (by norm_num)]
    norm_num
  have h32 : pyRound 3 ((3 : ℚ)/2) = 3/2 := by
    rw [pyRound_int 3 (3/2) 1500 (by norm_num)]
    norm_num
  have ht : intTrunc (120 : ℚ) = 120 := by
    have h := intTrunc_nonneg_int 120 (by norm_num)
    exact_mod_cast h
  have h10 : pyRound 1 ((30 : ℚ) / ((120 : ℚ) * (3/2)) * 60) = 10 := by
    rw [pyRound_int 1 _ 100 (by norm_num)]
    norm_num
  have h10b : pyRound 1 (10 : ℚ) = 10 := by
    rw [pyRound_int 1 10 100 (by norm_num)]
    norm_num
  have hstr : (("Allegro" : String) = "") = False := eq_false (by decide)
  have hE : extract_tempo_duration formulaScore Rec.empty
      = stage_duration (stage_marking_fallback formulaScore (stage_tempo_mark formulaScore
          ({ stage_total_ql formulaScore (stage_measures formulaScore Rec.empty) with
             is_multi_movement := some false }))) := by
    unfold extract_tempo_duration
    rw [hmf]
    simp
  rw [hE]
  norm_num [stage_measures, stage_total_ql, stage_tempo_mark, stage_marking_fallback,
            stage_duration, bpmOf, refFieldOf, markingOf, refOf, formulaScore,
            h30, h32, ht, h10, h10b, hstr, Rec.empty]

theorem tempo_branch_spec (s : ScoreE) (x : Rec) (hd : x.duration_seconds = none) :
    ((∃ d, (stage_duration (stage_marking_fallback s (stage_tempo_mark s x))).duration_seconds
            = some d) ↔
      ((∃ b, (stage_duration (stage_marking_fallback s (stage_tempo_mark s x))).tempo_bpm
              = some b ∧ 0 < b)
        ∧ (∃ q, (stage_duration (stage_marking_fallback s (stage_tempo_mark s x))).total_quarter_length
              = some q ∧ 0 < q)))
    ∧ (∀ b q,
        (stage_duration (stage_marking_fallback s (stage_tempo_mark s x))).tempo_bpm = some b →
        0 < b →
        (stage_duration (stage_marking_fallback s (stage_tempo_mark s x))).total_quarter_length
          = some q →
        0 < q →
        (stage_duration (stage_marking_fallback s (stage_tempo_mark s x))).duration_seconds
          = some (pyRound 1 (q /
              ((b : ℚ) * refOf (stage_duration (stage_marking_fallback s (stage_tempo_mark s x))).tempo_referent) * 60))) := by
  have hYd : (stage_marking_fallback s (stage_tempo_mark s x)).duration_seconds = none := by
    rw [(stage_marking_fallback_keeps s _).2.2.2.2.2, (stage_tempo_mark_keeps s x).2.2.2, hd]
  obtain ⟨d1, d2, d3, d4, d5, d6⟩ :=
    stage_duration_keeps (stage_marking_fallback s (stage_tempo_mark s x))
  constructor
  · rw [d4, d2]
    exact stage_duration_iff _ hYd
  · intro b q hb hbp hq hqp
    rw [d4] at hb
    rw [d2] at hq
    rw [d5]
    exact stage_duration_set _ b q hb hq hbp hqp

/-- C3: for a non-multi-movement score, `duration_seconds` is computed
exactly when `tempo_bpm` and `total_quarter_length` are present and
positive, and then equals the rounded formula value; the concrete
instance of the claim evaluates to 10.0. -/
theorem c3_duration_formula (s : ScoreE) (r : Rec)
    (hm : is_multi_movement s = false)
    (h5 : r.duration_seconds = none) :
    ((∃ d, (extract_tempo_duration s r).duration_seconds = some d) ↔
      ((∃ b, (extract_tempo_duration s r).tempo_bpm = some b ∧ 0 < b)
        ∧ (∃ q, (extract_tempo_duration s r).total_quarter_length = some q ∧ 0 < q)))
    ∧ (∀ b q, (extract_tempo_duration s r).tempo_bpm = some b → 0 < b →
        (extract_tempo_duration s r).total_quarter_length = some q → 0 < q →
        (extract_tempo_duration s r).duration_seconds
          = some (pyRound 1 (q / ((b : ℚ) * refOf (extract_tempo_duration s r).tempo_referent) * 60)))
    ∧ (extract_tempo_duration formulaScore Rec.empty).duration_seconds = some 10
    ∧ (extract_tempo_duration formulaScore Rec.empty).tempo_bpm = some 120
    ∧ (extract_tempo_duration formulaScore Rec.empty).tempo_referent = some (3/2)
    ∧ (extract_tempo_duration formulaScore Rec.empty).total_quarter_length = some 30 := by
  have hE : extract_tempo_duration s r
      = stage_duration (stage_marking_fallback s (stage_tempo_mark s
          ({ stage_total_ql s (stage_measures s r) with is_multi_movement := some false }))) := by
    unfold extract_tempo_duration
    rw [hm]
    simp
  have hd0 : ({ stage_total_ql s (stage_measures s r) with
                is_multi_movement := some false } : Rec).duration_seconds = none := by
    show (stage_total_ql s (stage_measures s r)).duration_seconds = none
    rw [(stage_total_ql_keeps s _).2.2.2.2, (stage_measures_keeps s r).2.2.2.2, h5]
  obtain ⟨hiff, hform⟩ := tempo_branch_spec s _ hd0
  rw [hE]
  exact ⟨hiff, hform, by rw [formulaScore_eval], by rw [formulaScore_eval],
         by rw [formulaScore_eval], by rw [formulaScore_eval]⟩

theorem c3_witness :
    (extract_tempo_duration formulaScore Rec.empty).duration_seconds = some 10 :=
  (c3_duration_formula formulaScore Rec.empty (by decide) rfl).2.2.1

-- ─────────────────────────────────────────────────────────────────
-- CLAIM C4: the analyzer error boundary
-- ─────────────────────────────────────────────────────────────────

/-- C4 (amended): an exception inside an analyzer is caught at the
analyzer boundary, appends exactly one diagnostic of the form
`"<analyzer-name>: <message>"`, and the remaining analyzers still run,
so the terminal status is `"extracted"`; however the record is kept as
mutated up to the exception point — keys the analyzer wrote before
failing remain (no rollback). -/
theorem c4_analyzer_boundary :
    (∀ (name : String) (body : Rec → Rec × Option String) (st : PipeState) (r' : Rec)
        (msg : String) (post : List Analyzer),
        body st.fr = (r', some msg) →
        runPipeline ((name, body) :: post) st
          = runPipeline post ⟨r', st.warnings ++ [name ++ ": " ++ msg]⟩)
    ∧ (∀ (pipeline : ScoreE → List Analyzer) (s : ScoreE),
        (extract pipeline (.ok s)).extraction_status = "extracted") := by
  constructor
  · intro name body st r' msg post hb
    show runPipeline post (runAnalyzer (name, body) st) = _
    unfold runAnalyzer
    dsimp only
    rw [hb]
  · intro pipeline s
    simp [extract, cleanup]

/-- C4 counterexample: at this concrete input the boundary does append
the single diagnostic, but the analyzer's own `lowest_pitch` key is
present in the record after the failure — the claim's "leaves no
partial keys for that analyzer's own feature group" is false on the
code. -/
theorem c4_counterexample :
    (runAnalyzer ("pitch_range", extract_pitch_range pitchFailScore) ⟨Rec.empty, []⟩).warnings
      = ["pitch_range: boom"]
    ∧ (runAnalyzer ("pitch_range", extract_pitch_range pitchFailScore) ⟨Rec.empty, []⟩).fr.lowest_pitch
      = some "C4" := by
  constructor
  · rfl
  · rfl

theorem c4_witness :
    extract_pitch_range pitchFailScore Rec.empty
      = ((extract_pitch_range pitchFailScore Rec.empty).1, some "boom")
    ∧ runPipeline [("pitch_range", extract_pitch_range pitchFailScore)] ⟨Rec.empty, []⟩
      = runPipeline [] ⟨(extract_pitch_range pitchFailScore Rec.empty).1,
                        [] ++ ["pitch_range" ++ ": " ++ "boom"]⟩ := by
  have hb : extract_pitch_range pitchFailScore Rec.empty
      = ((extract_pitch_range pitchFailScore Rec.empty).1, some "boom") := by
    refine Prod.ext rfl ?_
    rfl
  exact ⟨hb, c4_analyzer_boundary.1 "pitch_range" (extract_pitch_range pitchFailScore)
    ⟨Rec.empty, []⟩ _ "boom" [] hb⟩

-- ─────────────────────────────────────────────────────────────────
-- CLAIM C5: missing input file
-- ─────────────────────────────────────────────────────────────────

/-- C5: for a path that does not exist, the batch entry point returns a
failed record whose error message names the file, without consulting
the extraction function at all (the result is the same for every
extraction function, so the file is never parsed); the function is
total, so no exception propagates. -/
theorem c5_missing_file (f g : String → RawRecord) (ex : String → Bool) (path : String)
    (h : ex path = false) :
    extract_one f ex path
      = { extraction_status := "failed",
          extraction_error := some ("File not found: " ++ path),
          file_path := some path, features := Rec.empty,
          hasCacheKey := false, hasAnalyzedKeyKey := false,
          warningsField := none, extraction_warnings := none }
    ∧ (extract_one f ex path).extraction_status = "failed"
    ∧ (extract_one f ex path).extraction_error = some ("File not found: " ++ path)
    ∧ extract_one f ex path = extract_one g ex path := by
  simp only [extract_one, h]
  exact ⟨rfl, rfl, rfl, rfl⟩

theorem c5_witness :
    ((fun _ : String => false) "missing.mxl" = false)
    ∧ (extract_one (fun _ => dummyRaw) (fun _ => false) "missing.mxl").extraction_status
        = "failed"
    ∧ (extract_one (fun _ => dummyRaw) (fun _ => false) "missing.mxl").extraction_error
        = some ("File not found: " ++ "missing.mxl") :=
  ⟨rfl,
   (c5_missing_file (fun _ => dummyRaw) (fun _ => dummyRaw) (fun _ => false)
     "missing.mxl" rfl).2.1,
   (c5_missing_file (fun _ => dummyRaw) (fun _ => dummyRaw) (fun _ => false)
     "missing.mxl" rfl).2.2.1⟩

-- ─────────────────────────────────────────────────────────────────
-- CLAIM C10: the record returned by extract
-- ─────────────────────────────────────────────────────────────────

/-- C10: the record returned by `extract` never carries the internal
working keys `_cache`, `_analyzed_key`, `_warnings`; it carries
`_extraction_warnings` exactly when some analyzer appended a warning,
and then its value is the non-empty warnings list; and the terminal
status is `"extracted"` or `"failed"`, never the initial
`"pending"`. -/
theorem c10_extract_invariants (pipeline : ScoreE → List Analyzer)
    (parse : Except String ScoreE) :
    (extract pipeline parse).hasCacheKey = false
    ∧ (extract pipeline parse).hasAnalyzedKeyKey = false
    ∧ (extract pipeline parse).warningsField = none
    ∧ ((extract pipeline parse).extraction_status = "extracted"
        ∨ (extract pipeline parse).extraction_status = "failed")
    ∧ (∀ e, parse = .error e →
        (extract pipeline parse).extraction_warnings = none
        ∧ (extract pipeline parse).extraction_status = "failed")
    ∧ (∀ s, parse = .ok s →
        (extract pipeline parse).extraction_status = "extracted"
        ∧ (extract pipeline parse).extraction_warnings
            = (if (runPipeline (pipeline s) ⟨Rec.empty, []⟩).warnings.isEmpty then none
               else some (runPipeline (pipeline s) ⟨Rec.empty, []⟩).warnings)) := by
  cases parse with
  | error e =>
    refine ⟨rfl, rfl, rfl, Or.inr rfl, ?_, ?_⟩
    · intro e' he
      exact ⟨rfl, rfl⟩
    · intro s hs
      exact Except.noConfusion hs
  | ok s =>
    refine ⟨rfl, rfl, rfl, Or.inl rfl, ?_, ?_⟩
    · intro e' he
      exact Except.noConfusion he
    · intro s' hs
      obtain rfl : s' = s := (Except.ok.injEq _ _ ▸ hs).symm
      refine ⟨rfl, ?_⟩
      show (cleanup _).extraction_warnings = _
      unfold cleanup
      dsimp only [Option.getD]

theorem c10_witness :
    ((.ok emptyScore : Except String ScoreE) = .ok emptyScore)
    ∧ (extract (fun _ => []) (.ok emptyScore)).extraction_status = "extracted" :=
  ⟨rfl, ((c10_extract_invariants (fun _ => []) (.ok emptyScore)).2.2.2.2.2 emptyScore rfl).1⟩

-- ─────────────────────────────────────────────────────────────────
-- CLAIM C6: chromatic ratio
-- ─────────────────────────────────────────────────────────────────

theorem chromaticCountOf_le (dia : Finset ℕ) (l : List NoteEvent) :
    chromaticCountOf dia l ≤ pitchCountOf l := by
  unfold chromaticCountOf pitchCountOf
  suffices h : ∀ a b : ℕ, a ≤ b →
      l.foldl (fun acc n => acc + (notePitches n).countP (fun p => decide (p.midi % 12 ∉ dia))) a
        ≤ l.foldl (fun acc n => acc + (notePitches n).length) b from h 0 0 le_rfl
  induction l with
  | nil => intro a b h; exact h
  | cons n ns ih =>
    intro a b h
    exact ih _ _ (Nat.add_le_add h (List.countP_le_length _))

theorem chromaticCountOf_eq_zero (dia : Finset ℕ) (l : List NoteEvent)
    (h : ∀ n ∈ l, ∀ p ∈ notePitches n, p.midi % 12 ∈ dia) :
    chromaticCountOf dia l = 0 := by
  unfold chromaticCountOf
  suffices hgen : ∀ l' : List NoteEvent, ∀ a : ℕ,
      (∀ n ∈ l', ∀ p ∈ notePitches n, p.midi % 12 ∈ dia) →
      l'.foldl (fun acc n => acc + (notePitches n).countP (fun p => decide (p.midi % 12 ∉ dia))) a
        = a from hgen l 0 h
  intro l'
  induction l' with
  | nil => intro a _; rfl
  | cons n ns ih =>
    intro a hl'
    have hc : (notePitches n).countP (fun p => decide (p.midi % 12 ∉ dia)) = 0 := by
      rw [List.countP_eq_zero]
      intro p hp
      simp [hl' n (List.mem_cons_self n ns) p hp]
    rw [List.foldl_cons, hc, Nat.add_zero]
    exact ih a (fun m hm q hq => hl' m (List.mem_cons_of_mem n hm) q hq)

/-- C6: with a resolved key and a previously recorded positive
`pitch_count` (the pitch total of the same cached note list),
`chromatic_ratio` equals the chromatic count over the pitch count
rounded to 3 decimals, lies in [0,1], and is 0 for a fully diatonic
score. -/
theorem c6_chromatic_ratio (s : ScoreE) (r : Rec) (k : KeyE)
    (hk : s.analyzedKey = some k)
    (hpc : r.pitch_count = some (pitchCountOf s.flatNotes))
    (hpos : 0 < pitchCountOf s.flatNotes) :
    (extract_chromatic_notes s r).chromatic_note_count
        = some (chromaticCountOf (diatonicPCs k) s.flatNotes)
    ∧ (extract_chromatic_notes s r).chromatic_ratio
        = some (pyRound 3 ((chromaticCountOf (diatonicPCs k) s.flatNotes : ℚ)
              / (pitchCountOf s.flatNotes : ℚ)))
    ∧ (∀ x, (extract_chromatic_notes s r).chromatic_ratio = some x → 0 ≤ x ∧ x ≤ 1)
    ∧ ((∀ n ∈ s.flatNotes, ∀ p ∈ notePitches n, p.midi % 12 ∈ diatonicPCs k) →
        (extract_chromatic_notes s r).chromatic_ratio = some 0) := by
  have hratio : (0 : ℚ) ≤ (chromaticCountOf (diatonicPCs k) s.flatNotes : ℚ)
        / (pitchCountOf s.flatNotes : ℚ)
      ∧ (chromaticCountOf (diatonicPCs k) s.flatNotes : ℚ)
        / (pitchCountOf s.flatNotes : ℚ) ≤ 1 := by
    constructor
    · positivity
    · rw [div_le_one (by exact_mod_cast hpos)]
      exact_mod_cast chromaticCountOf_le (diatonicPCs k) s.flatNotes
  unfold extract_chromatic_notes
  rw [hk]
  dsimp only
  rw [hpc]
  dsimp only
  rw [if_pos hpos]
  refine ⟨rfl, rfl, ?_, ?_⟩
  · intro x hx
    have hx' : pyRound 3 ((chromaticCountOf (diatonicPCs k) s.flatNotes : ℚ)
        / (pitchCountOf s.flatNotes : ℚ)) = x := by
      exact (Option.some.injEq _ _ ▸ hx)
    rw [← hx']
    exact ⟨pyRound_nonneg 3 _ hratio.1, pyRound_le_one 3 _ hratio.2⟩
  · intro hdia
    have hz := chromaticCountOf_eq_zero (diatonicPCs k) s.flatNotes hdia
    rw [hz]
    simp [pyRound_zero]

theorem c6_witness :
    (0 < pitchCountOf diatonicScore.flatNotes)
    ∧ (extract_chromatic_notes diatonicScore
        { Rec.empty with pitch_count := some (pitchCountOf diatonicScore.flatNotes) }).chromatic_ratio
        = some 0
    ∧ (extract_chromatic_notes diatonicScore
        { Rec.empty with pitch_count := some (pitchCountOf diatonicScore.flatNotes) }).chromatic_note_count
        = some 0 := by
  have h := c6_chromatic_ratio diatonicScore
    { Rec.empty with pitch_count := some (pitchCountOf diatonicScore.flatNotes) }
    { scalePitchMidis := [60, 62, 64, 65, 67, 69, 71, 72] } rfl rfl (by decide)
  refine ⟨by decide, h.2.2.2 (by decide), ?_⟩
  rw [h.1]
  decide

-- ─────────────────────────────────────────────────────────────────
-- CLAIM C9: melodic fields
-- ─────────────────────────────────────────────────────────────────

theorem mem_counterOf (names : List String) (nm : String) (cnt : ℕ) :
    (nm, cnt) ∈ counterOf names ↔ nm ∈ names ∧ cnt = names.count nm := by
  unfold counterOf
  rw [List.mem_map]
  constructor
  · rintro ⟨a, ha, heq⟩
    obtain ⟨rfl, rfl⟩ : a = nm ∧ names.count a = cnt :=
      ⟨(Prod.mk.injEq _ _ _ _ ▸ heq).1, (Prod.mk.injEq _ _ _ _ ▸ heq).2⟩
    exact ⟨List.mem_dedup.mp ha, rfl⟩
  · rintro ⟨h1, rfl⟩
    exact ⟨nm, List.mem_dedup.mpr h1, rfl⟩

theorem foldl_max_mem (l : List ℕ) (a : ℕ) : l.foldl max a ∈ a :: l := by
  induction l generalizing a with
  | nil => exact List.mem_singleton.mpr rfl
  | cons x xs ih =>
    rw [List.foldl_cons]
    rcases List.mem_cons.mp (ih (max a x)) with h1 | h1
    · rw [h1]
      rcases max_choice a x with hm | hm <;> rw [hm]
      · exact List.mem_cons_self a (x :: xs)
      · exact List.mem_cons.mpr (Or.inr (List.mem_cons_self x xs))
    · exact List.mem_cons.mpr (Or.inr (List.mem_cons_of_mem x h1))

theorem le_foldl_max (l : List ℕ) (a : ℕ) :
    a ≤ l.foldl max a ∧ ∀ x ∈ l, x ≤ l.foldl max a := by
  induction l generalizing a with
  | nil => exact ⟨le_rfl, by simp⟩
  | cons y ys ih =>
    obtain ⟨h1, h2⟩ := ih (max a y)
    rw [List.foldl_cons]
    refine ⟨le_trans (le_max_left a y) h1, ?_⟩
    intro x hx
    rcases List.mem_cons.mp hx with rfl | hx
    · exact le_trans (le_max_right a x) h1
    · exact h2 x hx

theorem maxNat_mem (l : List ℕ) (hl : l ≠ []) : maxNat l ∈ l := by
  rcases List.mem_cons.mp (foldl_max_mem l 0) with h0 | h
  · rcases l with _ | ⟨x, xs⟩
    · exact absurd rfl hl
    · have hx : x ≤ maxNat (x :: xs) :=
        (le_foldl_max (x :: xs) 0).2 x (List.mem_cons_self x xs)
    -- `h0` says the fold evaluates to 0, so every element is 0
      have hx0 : x = 0 := by
        unfold maxNat at hx
        omega
      unfold maxNat
      rw [h0, ← hx0]
      exact List.mem_cons_self x xs
  · exact h

/-- C9: with fewer than 2 notes in the first part all melodic fields
stay absent; with at least 2 notes and a non-empty list of computed
intervals, the histogram (content of the Counter), the interval count,
the largest absolute semitone size (a genuine maximum), and the
stepwise count (intervals of at most 2 semitones) are all emitted. -/
theorem c9_melody_fields (icalc : MelNote → MelNote → Option IntervalM)
    (s : ScoreE) (r : Rec) (p : PartE) (rest : List PartE)
    (hp : s.parts = p :: rest)
    (h1 : r.interval_distribution = none) (h2 : r.interval_count = none)
    (h3 : r.largest_interval = none) (h4 : r.stepwise_count = none) :
    (p.melNotes.length < 2 →
        (extract_melody icalc s r).interval_distribution = none
        ∧ (extract_melody icalc s r).interval_count = none
        ∧ (extract_melody icalc s r).largest_interval = none
        ∧ (extract_melody icalc s r).stepwise_count = none)
    ∧ (¬ p.melNotes.length < 2 →
        ∀ res, res = (p.melNotes.zip p.melNotes.tail).filterMap (fun ab => icalc ab.1 ab.2) →
        res ≠ [] →
        (extract_melody icalc s r).interval_distribution
            = some (counterOf (res.map (fun iv => iv.simpleName)))
        ∧ (∀ nm c, (nm, c) ∈ counterOf (res.map (fun iv => iv.simpleName)) ↔
              (nm ∈ res.map (fun iv => iv.simpleName)
               ∧ c = (res.map (fun iv => iv.simpleName)).count nm))
        ∧ (extract_melody icalc s r).interval_count = some res.length
        ∧ (extract_melody icalc s r).largest_interval
            = some (maxNat (res.map (fun iv => iv.semitones.natAbs)))
        ∧ maxNat (res.map (fun iv => iv.semitones.natAbs))
            ∈ res.map (fun iv => iv.semitones.natAbs)
        ∧ (∀ x ∈ res.map (fun iv => iv.semitones.natAbs),
              x ≤ maxNat (res.map (fun iv => iv.semitones.natAbs)))
        ∧ (extract_melody icalc s r).stepwise_count
            = some (res.countP (fun iv => iv.semitones.natAbs ≤ 2))) := by
  unfold extract_melody
  rw [hp]
  dsimp only
  constructor
  · intro hlt
    rw [if_pos hlt]
    exact ⟨h1, h2, h3, h4⟩
  · intro hge res hres hne
    rw [if_neg hge]
    rw [← hres]
    have hnne : ¬ ((res.map (fun iv => iv.simpleName)).isEmpty = true) := by
      simp [hne]
    have hsne : ¬ ((res.map (fun iv => iv.semitones.natAbs)).isEmpty = true) := by
      simp [hne]
    rw [if_neg hnne, if_neg hsne]
    refine ⟨rfl, fun nm c => mem_counterOf _ nm c, ?_, rfl,
           maxNat_mem _ (by simp [hne]), (le_foldl_max _ 0).2, rfl⟩
    show some ((res.map (fun iv => iv.semitones.natAbs)).length) = some res.length
    rw [List.length_map]

theorem c9_witness :
    (¬ mel3Part.melNotes.length < 2)
    ∧ (extract_melody constM2 mel3Score Rec.empty).interval_count = some 2
    ∧ (extract_melody constM2 mel3Score Rec.empty).stepwise_count = some 2 := by
  have h := (c9_melody_fields constM2 mel3Score Rec.empty mel3Part [] rfl rfl rfl rfl rfl).2
    (by decide) _ rfl (by decide)
  refine ⟨by decide, ?_, ?_⟩
  · rw [h.2.2.1]
    decide
  · rw [h.2.2.2.2.2.2]
    decide

-- ─────────────────────────────────────────────────────────────────
-- TEXTURE STATE LEMMAS (shared by the texture claims)
-- ─────────────────────────────────────────────────────────────────

theorem classifyStep_partition (st : TexState) (bass soprano : ℤ)
    (h : st.contrary_count + st.parallel_count + st.oblique_count = st.total_transitions) :
    (classifyStep st bass soprano).contrary_count
      + (classifyStep st bass soprano).parallel_count
      + (classifyStep st bass soprano).oblique_count
      = (classifyStep st bass soprano).total_transitions := by
  unfold classifyStep
  split
  · split_ifs <;> (try dsimp only) <;> omega
  · omega

theorem classifyStep_unique (st : TexState) (bass soprano : ℤ) :
    (classifyStep st bass soprano).unique_chords = st.unique_chords := by
  unfold classifyStep
  split
  · split_ifs <;> rfl
  · rfl

theorem uniqueChordStep_counts (st : TexState) (pitches : List ℤ) :
    (uniqueChordStep st pitches).contrary_count = st.contrary_count
    ∧ (uniqueChordStep st pitches).parallel_count = st.parallel_count
    ∧ (uniqueChordStep st pitches).oblique_count = st.oblique_count
    ∧ (uniqueChordStep st pitches).total_transitions = st.total_transitions := by
  unfold uniqueChordStep
  split <;> exact ⟨rfl, rfl, rfl, rfl⟩

theorem motionStep_partition (st : TexState) (pitches : List ℤ)
    (h : st.contrary_count + st.parallel_count + st.oblique_count = st.total_transitions) :
    (motionStep st pitches).contrary_count
      + (motionStep st pitches).parallel_count
      + (motionStep st pitches).oblique_count
      = (motionStep st pitches).total_transitions := by
  unfold motionStep
  split
  · dsimp only
    exact classifyStep_partition _ _ _ h
  · exact h

theorem motionStep_unique (st : TexState) (pitches : List ℤ) :
    (motionStep st pitches).unique_chords = st.unique_chords := by
  unfold motionStep
  split
  · dsimp only
    exact classifyStep_unique _ _ _
  · rfl

theorem texStep_partition (st : TexState) (c : List ℤ)
    (h : st.contrary_count + st.parallel_count + st.oblique_count = st.total_transitions) :
    (texStep st c).contrary_count + (texStep st c).parallel_count
      + (texStep st c).oblique_count = (texStep st c).total_transitions := by
  unfold texStep
  split
  · exact h
  · apply motionStep_partition
    obtain ⟨e1, e2, e3, e4⟩ := uniqueChordStep_counts (densityStep st (sortInts c)) (sortInts c)
    rw [e1, e2, e3, e4]
    exact h

theorem foldl_texStep_partition (l : List (List ℤ)) (st : TexState)
    (h : st.contrary_count + st.parallel_count + st.oblique_count = st.total_transitions) :
    (l.foldl texStep st).contrary_count + (l.foldl texStep st).parallel_count
      + (l.foldl texStep st).oblique_count = (l.foldl texStep st).total_transitions := by
  induction l generalizing st with
  | nil => exact h
  | cons c cs ih => exact ih _ (texStep_partition st c h)

theorem texAvgStage_keeps (st : TexState) (r : Rec) :
    (texAvgStage st r).contrary_motion_ratio = r.contrary_motion_ratio
    ∧ (texAvgStage st r).parallel_motion_ratio = r.parallel_motion_ratio
    ∧ (texAvgStage st r).oblique_motion_ratio = r.oblique_motion_ratio
    ∧ (texAvgStage st r).unique_chord_count = r.unique_chord_count := by
  unfold texAvgStage
  split <;> exact ⟨rfl, rfl, rfl, rfl⟩

theorem texSpanStage_keeps (st : TexState) (r : Rec) :
    (texSpanStage st r).contrary_motion_ratio = r.contrary_motion_ratio
    ∧ (texSpanStage st r).parallel_motion_ratio = r.parallel_motion_ratio
    ∧ (texSpanStage st r).oblique_motion_ratio = r.oblique_motion_ratio
    ∧ (texSpanStage st r).unique_chord_count = r.unique_chord_count := by
  unfold texSpanStage
  split <;> exact ⟨rfl, rfl, rfl, rfl⟩

theorem texUniqueStage_keeps_ratios (st : TexState) (r : Rec) :
    (texUniqueStage st r).contrary_motion_ratio = r.contrary_motion_ratio
    ∧ (texUniqueStage st r).parallel_motion_ratio = r.parallel_motion_ratio
    ∧ (texUniqueStage st r).oblique_motion_ratio = r.oblique_motion_ratio := by
  unfold texUniqueStage
  split <;> exact ⟨rfl, rfl, rfl⟩

theorem texMotionStage_pos (st : TexState) (r : Rec) (h : 0 < st.total_transitions) :
    (texMotionStage st r).contrary_motion_ratio
        = some (pyRound 3 ((st.contrary_count : ℚ) / (st.total_transitions : ℚ)))
    ∧ (texMotionStage st r).parallel_motion_ratio
        = some (pyRound 3 ((st.parallel_count : ℚ) / (st.total_transitions : ℚ)))
    ∧ (texMotionStage st r).oblique_motion_ratio
        = some (pyRound 3 ((st.oblique_count : ℚ) / (st.total_transitions : ℚ))) := by
  unfold texMotionStage
  rw [if_pos h]
  exact ⟨rfl, rfl, rfl⟩

theorem texMotionStage_zero (st : TexState) (r : Rec) (h : ¬ 0 < st.total_transitions) :
    texMotionStage st r = r := by
  unfold texMotionStage
  rw [if_neg h]

-- ─────────────────────────────────────────────────────────────────
-- CLAIM C7: motion ratios partition and sum to 1 within rounding
-- ─────────────────────────────────────────────────────────────────

/-- C7: every qualifying transition is classified as exactly one of
contrary, parallel, oblique (the three counters partition the
transition total); when no qualifying transition exists (or the score
has no parts) no motion ratio is emitted; when one exists the three
emitted ratios are the rounded count fractions and their sum is within
3/2000 of 1. -/
theorem c7_motion_ratios (s : ScoreE) (r : Rec)
    (h1 : r.contrary_motion_ratio = none) (h2 : r.parallel_motion_ratio = none)
    (h3 : r.oblique_motion_ratio = none) :
    ((texFold s).contrary_count + (texFold s).parallel_count + (texFold s).oblique_count
        = (texFold s).total_transitions)
    ∧ ((s.parts.isEmpty = true ∨ (texFold s).total_transitions = 0) →
        (extract_texture s r).contrary_motion_ratio = none
        ∧ (extract_texture s r).parallel_motion_ratio = none
        ∧ (extract_texture s r).oblique_motion_ratio = none)
    ∧ (s.parts.isEmpty = false → 0 < (texFold s).total_transitions →
        ∃ a b c : ℚ,
          (extract_texture s r).contrary_motion_ratio = some a
          ∧ (extract_texture s r).parallel_motion_ratio = some b
          ∧ (extract_texture s r).oblique_motion_ratio = some c
          ∧ a = pyRound 3 (((texFold s).contrary_count : ℚ) / ((texFold s).total_transitions : ℚ))
          ∧ b = pyRound 3 (((texFold s).parallel_count : ℚ) / ((texFold s).total_transitions : ℚ))
          ∧ c = pyRound 3 (((texFold s).oblique_count : ℚ) / ((texFold s).total_transitions : ℚ))
          ∧ |a + b + c - 1| ≤ 3/2000) := by
  have hpart : (texFold s).contrary_count + (texFold s).parallel_count
      + (texFold s).oblique_count = (texFold s).total_transitions :=
    foldl_texStep_partition s.chordSimultaneities initTex rfl
  refine ⟨hpart, ?_, ?_⟩
  · intro hcase
    unfold extract_texture
    rcases hcase with hp | ht
    · rw [if_pos hp]
      exact ⟨h1, h2, h3⟩
    · split
      · exact ⟨h1, h2, h3⟩
      · obtain ⟨u1, u2, u3⟩ := texUniqueStage_keeps_ratios (texFold s)
          (texMotionStage (texFold s) (texSpanStage (texFold s) (texAvgStage (texFold s) r)))
        rw [u1, u2, u3, texMotionStage_zero _ _ (by omega)]
        obtain ⟨s1, s2, s3, _⟩ := texSpanStage_keeps (texFold s) (texAvgStage (texFold s) r)
        obtain ⟨a1, a2, a3, _⟩ := texAvgStage_keeps (texFold s) r
        rw [s1, a1, s2, a2, s3, a3]
        exact ⟨h1, h2, h3⟩
  · intro hp htpos
    unfold extract_texture
    rw [if_neg (by simp [hp])]
    obtain ⟨u1, u2, u3⟩ := texUniqueStage_keeps_ratios (texFold s)
      (texMotionStage (texFold s) (texSpanStage (texFold s) (texAvgStage (texFold s) r)))
    obtain ⟨m1, m2, m3⟩ := texMotionStage_pos (texFold s)
      (texSpanStage (texFold s) (texAvgStage (texFold s) r)) htpos
    refine ⟨_, _, _, by rw [u1, m1], by rw [u2, m2], by rw [u3, m3], rfl, rfl, rfl, ?_⟩
    have ht0 : ((texFold s).total_transitions : ℚ) ≠ 0 := by
      exact_mod_cast Nat.pos_iff_ne_zero.mp htpos
    have hsum : ((texFold s).contrary_count : ℚ) / ((texFold s).total_transitions : ℚ)
        + ((texFold s).parallel_count : ℚ) / ((texFold s).total_transitions : ℚ)
        + ((texFold s).oblique_count : ℚ) / ((texFold s).total_transitions : ℚ) = 1 := by
      rw [div_add_div_same, div_add_div_same]
      rw [show ((texFold s).contrary_count : ℚ) + ((texFold s).parallel_count : ℚ)
            + ((texFold s).oblique_count : ℚ) = ((texFold s).total_transitions : ℚ) from by
        exact_mod_cast hpart]
      exact div_self ht0
    have e1 := abs_pyRound_sub 3
      (((texFold s).contrary_count : ℚ) / ((texFold s).total_transitions : ℚ))
    have e2 := abs_pyRound_sub 3
      (((texFold s).parallel_count : ℚ) / ((texFold s).total_transitions : ℚ))
    have e3 := abs_pyRound_sub 3
      (((texFold s).oblique_count : ℚ) / ((texFold s).total_transitions : ℚ))
    have hb : (1 : ℚ) / (2 * 10 ^ 3) = 1/2000 := by norm_num
    rw [hb] at e1 e2 e3
    set x := ((texFold s).contrary_count : ℚ) / ((texFold s).total_transitions : ℚ)
    set y := ((texFold s).parallel_count : ℚ) / ((texFold s).total_transitions : ℚ)
    set z := ((texFold s).oblique_count : ℚ) / ((texFold s).total_transitions : ℚ)
    have key : pyRound 3 x + pyRound 3 y + pyRound 3 z - 1
        = (pyRound 3 x - x) + (pyRound 3 y - y) + (pyRound 3 z - z) := by
      rw [← hsum]
      ring
    rw [key]
    calc |(pyRound 3 x - x) + (pyRound 3 y - y) + (pyRound 3 z - z)|
        ≤ |(pyRound 3 x - x) + (pyRound 3 y - y)| + |pyRound 3 z - z| := abs_add _ _
      _ ≤ |pyRound 3 x - x| + |pyRound 3 y - y| + |pyRound 3 z - z| := by
          have := abs_add (pyRound 3 x - x) (pyRound 3 y - y)
          linarith
      _ ≤ 3/2000 := by linarith

theorem c7_witness :
    (texFold parallelScore).total_transitions = 1
    ∧ (texFold parallelScore).contrary_count + (texFold parallelScore).parallel_count
        + (texFold parallelScore).oblique_count = (texFold parallelScore).total_transitions :=
  ⟨by decide, (c7_motion_ratios parallelScore Rec.empty rfl rfl rfl).1⟩

-- ─────────────────────────────────────────────────────────────────
-- CLAIM C8: unique chord count
-- ─────────────────────────────────────────────────────────────────

theorem pcSet_perm (c c' : List ℤ) (h : c.Perm c') : pcSet c = pcSet c' :=
  List.toFinset_eq_of_perm _ _ (h.map _)

theorem pcSet_transpose (c : List ℤ) (k : ℤ) :
    pcSet (c.map (fun m => m + 12 * k)) = pcSet c := by
  unfold pcSet
  rw [List.map_map]
  have hfun : ((fun p : ℤ => p % 12) ∘ fun m : ℤ => m + 12 * k) = fun m : ℤ => m % 12 := by
    funext m
    simp [Function.comp, Int.add_mul_emod_self_left]
  rw [hfun]

theorem sortInts_empty_eq (c : List ℤ) (h : (sortInts c).isEmpty = true) : c = [] := by
  rw [sortInts_isEmpty] at h
  exact List.isEmpty_iff.mp h

theorem texStep_unique (st : TexState) (c : List ℤ) :
    (texStep st c).unique_chords
      = (match chordFilter c with
         | some x => insert x st.unique_chords
         | none => st.unique_chords) := by
  unfold texStep
  split
  · rename_i hemp
    have hc : c = [] := sortInts_empty_eq c hemp
    subst hc
    have hf : chordFilter ([] : List ℤ) = none := by
      unfold chordFilter
      rw [if_neg]
      intro hcon
      simp [pcSet] at hcon
    rw [hf]
  · rw [motionStep_unique]
    unfold uniqueChordStep chordFilter
    rw [show (((sortInts c).map (fun p => p % 12)).toFinset) = pcSet c from
          pcSet_perm (sortInts c) c (sortInts_perm c)]
    split
    · rfl
    · rfl

theorem foldl_texStep_unique (l : List (List ℤ)) (st : TexState) :
    (l.foldl texStep st).unique_chords = st.unique_chords ∪ chordSetOf l := by
  induction l generalizing st with
  | nil =>
    unfold chordSetOf
    simp
  | cons c cs ih =>
    rw [List.foldl_cons, ih, texStep_unique]
    unfold chordSetOf
    rw [List.filterMap_cons]
    cases hf : chordFilter c with
    | none => rfl
    | some x =>
      show insert x st.unique_chords ∪ _ = st.unique_chords ∪ (x :: _).toFinset
      rw [List.toFinset_cons, Finset.insert_union, Finset.union_insert]

theorem mem_chordSetOf (l : List (List ℤ)) (x : Finset ℤ) :
    x ∈ chordSetOf l ↔
      ∃ c ∈ l, ((pcSet c).card = 3 ∨ (pcSet c).card = 4) ∧ x = pcSet c := by
  unfold chordSetOf
  rw [List.mem_toFinset, List.mem_filterMap]
  constructor
  · rintro ⟨c, hc, hf⟩
    unfold chordFilter at hf
    split at hf
    · rename_i hcond
      refine ⟨c, hc, by omega, ?_⟩
      exact (Option.some.injEq _ _ ▸ hf).symm
    · exact Option.noConfusion hf
  · rintro ⟨c, hc, hcard, rfl⟩
    refine ⟨c, hc, ?_⟩
    unfold chordFilter
    rw [if_pos (by omega)]

theorem chordFilter_congr (c d : List ℤ) (h : pcSet c = pcSet d) :
    chordFilter c = chordFilter d := by
  unfold chordFilter
  rw [h]

theorem chordSetOf_append_dup (l : List (List ℤ)) (c : List ℤ) (hc : c ∈ l)
    (d : List ℤ) (hd : pcSet d = pcSet c) :
    chordSetOf (l ++ [d]) = chordSetOf l := by
  unfold chordSetOf
  rw [List.filterMap_append, List.toFinset_append]
  have hfd : chordFilter d = chordFilter c := chordFilter_congr d c hd
  cases hf : chordFilter c with
  | none =>
    rw [show List.filterMap chordFilter [d] = [] from by
      simp [List.filterMap_cons, hfd, hf]]
    simp
  | some x =>
    have hx : x ∈ (l.filterMap chordFilter).toFinset := by
      rw [List.mem_toFinset]
      exact List.mem_filterMap.mpr ⟨c, hc, hf⟩
    rw [show List.filterMap chordFilter [d] = [x] from by
      simp [List.filterMap_cons, hfd, hf]]
    rw [Finset.union_eq_left]
    intro y hy
    rw [show y = x from by simpa using hy]
    exact hx

/-- C8: the texture pass collects exactly the distinct pitch-class sets
of cardinality 3 or 4 among the simultaneities; `unique_chord_count` is
their number (emitted when non-zero); and the collection is invariant
under octave transposition and reordering of a chord's pitches, so a
repeat of an existing chord in another octave or inversion never
changes the count. -/
theorem c8_unique_chord_count (s : ScoreE) (r : Rec) :
    (texFold s).unique_chords = chordSetOf s.chordSimultaneities
    ∧ (s.parts.isEmpty = false → chordSetOf s.chordSimultaneities ≠ ∅ →
        (extract_texture s r).unique_chord_count
          = some (chordSetOf s.chordSimultaneities).card)
    ∧ (∀ x, x ∈ chordSetOf s.chordSimultaneities ↔
        ∃ c ∈ s.chordSimultaneities,
          ((pcSet c).card = 3 ∨ (pcSet c).card = 4) ∧ x = pcSet c)
    ∧ (∀ (c : List ℤ) (k : ℤ) (c' : List ℤ), c.Perm c' →
        pcSet (c'.map (fun m => m + 12 * k)) = pcSet c)
    ∧ (∀ (l : List (List ℤ)) (c : List ℤ), c ∈ l → ∀ (k : ℤ) (c' : List ℤ), c.Perm c' →
        chordSetOf (l ++ [c'.map (fun m => m + 12 * k)]) = chordSetOf l) := by
  have hchar : (texFold s).unique_chords = chordSetOf s.chordSimultaneities := by
    unfold texFold
    rw [foldl_texStep_unique]
    rw [show initTex.unique_chords = ∅ from rfl, Finset.empty_union]
  refine ⟨hchar, ?_, mem_chordSetOf s.chordSimultaneities,
          fun c k c' hperm => (pcSet_transpose c' k).trans (pcSet_perm c c' hperm).symm,
          fun l c hc k c' hperm => chordSetOf_append_dup l c hc _
            ((pcSet_transpose c' k).trans (pcSet_perm c c' hperm).symm)⟩
  intro hp hne
  unfold extract_texture
  rw [if_neg (by simp [hp])]
  unfold texUniqueStage
  have hcard : ¬ ((texFold s).unique_chords.card = 0) := by
    rw [hchar]
    exact fun h => hne (Finset.card_eq_zero.mp h)
  rw [if_neg hcard]
  show some ((texFold s).unique_chords.card) = _
  rw [hchar]

theorem c8_witness :
    chordSetOf octaveScore.chordSimultaneities ≠ ∅
    ∧ (extract_texture octaveScore Rec.empty).unique_chord_count
        = some (chordSetOf octaveScore.chordSimultaneities).card
    ∧ (chordSetOf octaveScore.chordSimultaneities).card = 1 := by
  refine ⟨by decide, (c8_unique_chord_count octaveScore Rec.empty).2.1 rfl (by decide), by decide⟩

end Scorebase
